import Mathlib

/-!
Shallow embedding of the review-moderation engine of the reviewsML
repository (src/reviews_poc/review_analyzer.py together with the pattern
catalog of src/reviews_poc/prompts.py and the tag vocabularies of
src/reviews_poc/config.py), and proofs of the specification claims about it.

Python dictionaries holding the signal set are modelled as insertion-ordered
association lists over a scalar value type; Python regular-expression search
is modelled by executable backtracking matchers over lists of characters,
one matcher per source pattern.  Character classes follow the ASCII meaning
of the Python classes; all concrete inputs used in proofs are ASCII (plus
the rupee sign, which no class or case mapping touches).
-/

namespace ReviewsPoc

/-- A scalar value stored in a Python dict: a JSON boolean, string,
integer, or null, as they occur in the parsed model response. -/
inductive SVal where
  | b (v : Bool)
  | s (v : String)
  | i (v : Int)
  | null
deriving DecidableEq, Repr

/-- Python truthiness of a scalar, as used by `if signals.get(key, False):`. -/
def truthy : SVal → Bool
  | .b v => v
  | .s v => v != ""
  | .i v => v != 0
  | .null => false

/-- A Python dict with string keys, as an insertion-ordered association
list (keys are unique in every dict the program builds). -/
def Dict := List (String × SVal)

instance : DecidableEq Dict := by unfold Dict; infer_instance

/-- Python `d.get(k, dflt)`. -/
def dget (d : Dict) (k : String) (dflt : SVal) : SVal :=
  match d with
  | [] => dflt
  | (k', v) :: rest => if k' = k then v else dget rest k dflt

/-- Python `d[k] = v`: replaces the value in place if the key exists,
appends the binding otherwise (insertion order is preserved). -/
def dset (d : Dict) (k : String) (v : SVal) : Dict :=
  match d with
  | [] => [(k, v)]
  | (k', v') :: rest => if k' = k then (k', v) :: rest else (k', v') :: dset rest k v

/-- The keys of a dict, in insertion order. -/
def dkeys (d : Dict) : List String := d.map Prod.fst

/-! ### Character classes (ASCII reading of the Python regex classes) -/

/-- Python whitespace class `\s` (ASCII part), also the separator set of
`str.split()` / `str.strip()`. -/
def isPySpace (c : Char) : Bool :=
  c == ' ' || c == '\t' || c == '\n' || c == '\x0b' || c == '\x0c' || c == '\r'

/-- Python word-character class `\w` (ASCII part): letters, digits, underscore. -/
def isWordChar (c : Char) : Bool := c.isAlphanum || c == '_'

/-- Hexadecimal digit, for the `%xx` escape alternative of the URL pattern. -/
def isHexC (c : Char) : Bool :=
  c.isDigit || ('a' ≤ c && c ≤ 'f') || ('A' ≤ c && c ≤ 'F')

/-- Python `str.lower()` restricted to its ASCII behaviour, applied
character by character. -/
def pyLower (cs : List Char) : List Char := cs.map Char.toLower

/-- Number of whitespace-separated words, i.e. `len(text.strip().split())`.
The flag distinguishes whether the previous character was inside a word. -/
def countWordsAux : List Char → Bool → Nat
  | [], _ => 0
  | c :: cs, inWord =>
      if isPySpace c then countWordsAux cs false
      else (if inWord then 0 else 1) + countWordsAux cs true

def countWords (cs : List Char) : Nat := countWordsAux cs false

/-! ### Regex matcher combinators

Each source pattern becomes a Bool-valued matcher on the suffix starting at
a candidate position.  Repetition combinators try every split point, so a
matcher returns true exactly when some (greedy or not) parse succeeds —
match existence, which is all `re.search` is used for here. -/

/-- Accepting continuation: the pattern has been fully consumed. -/
def acceptAll : List Char → Bool := fun _ => true

/-- Match a literal character, then continue. -/
def litThen (p : Char) (k : List Char → Bool) : List Char → Bool
  | [] => false
  | c :: cs => c == p && k cs

/-- Match a literal character sequence, then continue. -/
def strThen : List Char → (List Char → Bool) → List Char → Bool
  | [], k, cs => k cs
  | _ :: _, _, [] => false
  | p :: ps, k, c :: cs => c == p && strThen ps k cs

/-- Kleene star over a character class (`X*`), then continue; tries every
number of repetitions. -/
def starThen (p : Char → Bool) (k : List Char → Bool) : List Char → Bool
  | [] => k []
  | c :: cs => k (c :: cs) || (p c && starThen p k cs)

/-- One-or-more repetition over a character class (`X+`), then continue. -/
def plusThen (p : Char → Bool) (k : List Char → Bool) : List Char → Bool
  | [] => false
  | c :: cs => p c && starThen p k cs

/-- Optional literal character (`c?`), then continue. -/
def optCharThen (p : Char) (k : List Char → Bool) : List Char → Bool
  | [] => k []
  | c :: cs => (c == p && k cs) || k (c :: cs)

/-- Exactly `n` repetitions of a character class (`X{n}`), then continue. -/
def repThen (p : Char → Bool) : Nat → (List Char → Bool) → List Char → Bool
  | 0, k, cs => k cs
  | _ + 1, _, [] => false
  | n + 1, k, c :: cs => p c && repThen p n k cs

/-- `re.search` for a context-free matcher: try the pattern at every
position of the text (including the final empty suffix). -/
def reSearch (p : List Char → Bool) : List Char → Bool
  | [] => p []
  | c :: cs => p (c :: cs) || reSearch p cs

/-- `re.search` for a matcher that also inspects the preceding character
(needed for the `\b` word-boundary assertions). `prev = none` at the start
of the text. -/
def reSearchB (p : Option Char → List Char → Bool) : Option Char → List Char → Bool
  | prev, [] => p prev []
  | prev, c :: cs => p prev (c :: cs) || reSearchB p (some c) cs

/-- `\b` before a word character: start of text or a non-word predecessor. -/
def boundaryBefore : Option Char → Bool
  | none => true
  | some c => !isWordChar c

/-- `\b` after a word character: end of text or a non-word successor. -/
def boundaryAfter : List Char → Bool
  | [] => true
  | c :: _ => !isWordChar c

/-! ### The pattern catalog of src/reviews_poc/prompts.py

Each Python regex becomes one matcher.  Patterns searched case-insensitively
are only ever applied to lowercased text, so their literals are written in
lower case. -/

/-- PRICE_PATTERNS[0]: the rupee sign, optional whitespace, digits. -/
def pricePat0 : List Char → Bool :=
  litThen '₹' (starThen isPySpace (plusThen Char.isDigit acceptAll))

/-- PRICE_PATTERNS[1]: literal rs, optional dot, optional whitespace, digits. -/
def pricePat1 : List Char → Bool :=
  strThen "rs".data (optCharThen '.' (starThen isPySpace (plusThen Char.isDigit acceptAll)))

/-- PRICE_PATTERNS[2]: literal inr, optional whitespace, digits. -/
def pricePat2 : List Char → Bool :=
  strThen "inr".data (starThen isPySpace (plusThen Char.isDigit acceptAll))

/-- The tail of PRICE_PATTERNS[3..5]: optional whitespace, then one-or-more
digits or one-or-more word characters (the two alternatives of the group). -/
def amountTail : List Char → Bool :=
  starThen isPySpace
    (fun cs => plusThen Char.isDigit acceptAll cs || plusThen isWordChar acceptAll cs)

/-- PRICE_PATTERNS[3]: literal paid, then an amount or word. -/
def pricePat3 : List Char → Bool := strThen "paid".data amountTail

/-- PRICE_PATTERNS[4]: literal cost, then an amount or word. -/
def pricePat4 : List Char → Bool := strThen "cost".data amountTail

/-- PRICE_PATTERNS[5]: literal price, then an amount or word. -/
def pricePat5 : List Char → Bool := strThen "price".data amountTail

/-- PRICE_PATTERNS[6]: digits, optional whitespace, then one of the literal
alternatives per night, per day, per room. -/
def pricePat6 : List Char → Bool :=
  plusThen Char.isDigit
    (starThen isPySpace
      (fun cs =>
        strThen "per night".data acceptAll cs ||
        strThen "per day".data acceptAll cs ||
        strThen "per room".data acceptAll cs))

/-- PRICE_PATTERNS, in source order. -/
def PRICE_PATTERNS : List (List Char → Bool) :=
  [pricePat0, pricePat1, pricePat2, pricePat3, pricePat4, pricePat5, pricePat6]

/-- CONTACT_PATTERNS[0]: word boundary, exactly ten digits, word boundary. -/
def contactPat0 (prev : Option Char) (cs : List Char) : Bool :=
  boundaryBefore prev && repThen Char.isDigit 10 boundaryAfter cs

/-- CONTACT_PATTERNS[1]: word boundary, a 3-3-4 digit group pattern with
hyphens, word boundary. -/
def contactPat1 (prev : Option Char) (cs : List Char) : Bool :=
  boundaryBefore prev &&
    repThen Char.isDigit 3 (litThen '-'
      (repThen Char.isDigit 3 (litThen '-'
        (repThen Char.isDigit 4 boundaryAfter)))) cs

/-- The character class of the local and domain parts of the email pattern:
word characters, dot, hyphen. -/
def emailChar (c : Char) : Bool := isWordChar c || c == '.' || c == '-'

/-- CONTACT_PATTERNS[2]: the email pattern — a nonempty run of email
characters, an at sign, a nonempty run, a dot, word characters. -/
def contactPat2 (_ : Option Char) (cs : List Char) : Bool :=
  plusThen emailChar (litThen '@'
    (plusThen emailChar (litThen '.' (plusThen isWordChar acceptAll)))) cs

/-- CONTACT_PATTERNS, in source order (context-aware for word boundaries). -/
def CONTACT_PATTERNS : List (Option Char → List Char → Bool) :=
  [contactPat0, contactPat1, contactPat2]

/-- A word: one-or-more word characters (the captured name group). -/
def wordPlus : List Char → Bool := plusThen isWordChar acceptAll

/-- OWNER_NAME_PATTERNS[0]: one of the keywords owner, manager, proprietor,
boss, then whitespace, an optional literal is followed by whitespace, then a
word. -/
def ownerPat0 (cs : List Char) : Bool :=
  let tail : List Char → Bool := plusThen isPySpace
    (fun cs => strThen "is".data (plusThen isPySpace wordPlus) cs || wordPlus cs)
  strThen "owner".data tail cs || strThen "manager".data tail cs ||
  strThen "proprietor".data tail cs || strThen "boss".data tail cs

/-- OWNER_NAME_PATTERNS[1]: one of spoke, talked, met, then whitespace, an
optional literal with followed by whitespace, then a word, then an optional
trailing group naming the owner or manager (which cannot change match
existence, but is transcribed). -/
def ownerPat1 (cs : List Char) : Bool :=
  let trailing : List Char → Bool := plusThen isPySpace
    (strThen "the".data (plusThen isPySpace
      (fun cs => strThen "owner".data acceptAll cs || strThen "manager".data acceptAll cs)))
  let name : List Char → Bool :=
    plusThen isWordChar (fun cs => trailing cs || acceptAll cs)
  let tail : List Char → Bool := plusThen isPySpace
    (fun cs => strThen "with".data (plusThen isPySpace name) cs || name cs)
  strThen "spoke".data tail cs || strThen "talked".data tail cs ||
  strThen "met".data tail cs

/-- OWNER_NAME_PATTERNS, in source order. -/
def OWNER_NAME_PATTERNS : List (List Char → Bool) := [ownerPat0, ownerPat1]

/-- PROFANITY_PATTERNS[0]: word boundary, one of the fixed profanity words,
word boundary. -/
def profanityPat0 (prev : Option Char) (cs : List Char) : Bool :=
  boundaryBefore prev &&
    (strThen "damn".data boundaryAfter cs || strThen "shit".data boundaryAfter cs ||
     strThen "bloody".data boundaryAfter cs || strThen "crap".data boundaryAfter cs ||
     strThen "hell".data boundaryAfter cs)

/-- PROFANITY_PATTERNS, in source order (context-aware for word boundaries). -/
def PROFANITY_PATTERNS : List (Option Char → List Char → Bool) := [profanityPat0]

/-- The single-character class of the URL body: ASCII letters, digits, the
range from dollar to underscore, and the extra punctuation class. -/
def urlChar (c : Char) : Bool :=
  c.isAlpha || c.isDigit || ('$' ≤ c && c ≤ '_') ||
  c == '!' || c == '*' || c == '\\' || c == '(' || c == ')' || c == ','

/-- One element of the URL-body repetition: a single class character or a
percent escape with two hexadecimal digits.  The repetition is one-or-more
and ends the pattern, so one element decides match existence. -/
def urlElem : List Char → Bool
  | [] => false
  | c :: rest =>
      urlChar c ||
      (c == '%' && (match rest with
        | a :: b :: _ => isHexC a && isHexC b
        | _ => false))

/-- SUSPICIOUS_LINK_PATTERNS[0]: literal http, optional s, literal ://, then
a nonempty URL body. -/
def linkPat0 : List Char → Bool :=
  strThen "http".data (optCharThen 's' (strThen "://".data urlElem))

/-- SUSPICIOUS_LINK_PATTERNS[1]: literal www. then one-or-more
non-whitespace characters. -/
def linkPat1 : List Char → Bool :=
  strThen "www.".data (plusThen (fun c => !isPySpace c) acceptAll)

/-- SUSPICIOUS_LINK_PATTERNS, in source order. -/
def SUSPICIOUS_LINK_PATTERNS : List (List Char → Bool) := [linkPat0, linkPat1]

/-! ### Vocabularies and tables (config.py, prompts.py) -/

/-- config.SENTIMENT_TAGS. -/
def SENTIMENT_TAGS : List String :=
  ["SENTIMENT_POSITIVE", "SENTIMENT_NEUTRAL", "SENTIMENT_NEGATIVE"]

/-- config.TOPIC_TAGS: the fixed 14-tag topic allow-list. -/
def TOPIC_TAGS : List String :=
  ["CLEANLINESS", "ROOM_QUALITY", "BATHROOM", "FOOD_BREAKFAST", "RESTAURANT_FOOD",
   "SERVICE_STAFF", "CHECKIN_CHECKOUT", "LOCATION", "AMENITIES", "WIFI",
   "NOISE", "PARKING", "SAFETY_SECURITY", "MAINTENANCE"]

/-- prompts.REJECTION_REASONS_RULES: reason code to human-readable text. -/
def REJECTION_REASONS_RULES : List (String × String) :=
  [("PRICE_MENTIONED", "Price, tariff, or monetary amount mentioned"),
   ("OWNER_MENTIONED", "Hotel owner or manager name mentioned"),
   ("CONTACT_INFO", "Phone number or email address present"),
   ("ABUSIVE_LANGUAGE", "Contains profanity or abusive language"),
   ("SPAM_LINKS", "Contains spam, advertisements, or links"),
   ("HATE_SEXUAL_VIOLENT", "Contains hate speech, sexual, or violent content")]

/-- Python REJECTION_REASONS_RULES.get(code, code). -/
def rejectionReasonText (code : String) : String :=
  match REJECTION_REASONS_RULES.find? (fun p => p.1 == code) with
  | some p => p.2
  | none => code

/-! ### The analyzer (src/reviews_poc/review_analyzer.py) -/

/-- A sequence of conditional signal updates, each of the form
`if cond: signals[key] = True`, applied left to right.  The body of
ReviewAnalyzer._enhance_signals_with_regex is exactly such a sequence. -/
def applySteps : List (Bool × String) → Dict → Dict
  | [], d => d
  | (c, key) :: rest, d =>
      applySteps rest (if c then dset d key (.b true) else d)

/-- ReviewAnalyzer._enhance_signals_with_regex: the deterministic Pattern
Matcher.  Price, owner and profanity patterns are searched on the lowercased
text; contact and link patterns on the original text; the word count (below
15) drives the too_short flag.  A hit sets the corresponding signal to true;
a miss leaves the dict untouched. -/
def enhance_signals_with_regex (review_text : String) (signals : Dict) : Dict :=
  let text_lower := pyLower review_text.data
  applySteps
    [ (PRICE_PATTERNS.any (fun p => reSearch p text_lower), "price_mentioned"),
      (CONTACT_PATTERNS.any (fun p => reSearchB p none review_text.data), "phone_email_present"),
      (OWNER_NAME_PATTERNS.any (fun p => reSearch p text_lower), "owner_name_mentioned"),
      (PROFANITY_PATTERNS.any (fun p => reSearchB p none text_lower), "abusive_language"),
      (SUSPICIOUS_LINK_PATTERNS.any (fun p => reSearch p review_text.data), "spam_or_links"),
      (decide (countWords review_text.data < 15), "too_short") ]
    signals

/-- ReviewAnalyzer._determine_sentiment: the Sentiment Reconciler. -/
def determine_sentiment (llm_sentiment : String) (rating : Int) : String :=
  let llm_sentiment :=
    if SENTIMENT_TAGS.contains llm_sentiment then llm_sentiment else "SENTIMENT_NEUTRAL"
  if 4 ≤ rating ∧ llm_sentiment = "SENTIMENT_NEGATIVE" then "SENTIMENT_POSITIVE"
  else if rating ≤ 2 ∧ llm_sentiment = "SENTIMENT_POSITIVE" then "SENTIMENT_NEGATIVE"
  else llm_sentiment

/-- The hard_reject_checks table, in its source (insertion) order. -/
def hard_reject_checks : List (String × String) :=
  [("price_mentioned", "PRICE_MENTIONED"),
   ("owner_name_mentioned", "OWNER_MENTIONED"),
   ("phone_email_present", "CONTACT_INFO"),
   ("abusive_language", "ABUSIVE_LANGUAGE"),
   ("spam_or_links", "SPAM_LINKS"),
   ("hate_sexual_violent", "HATE_SEXUAL_VIOLENT")]

/-- ReviewAnalyzer._apply_publishing_rules: the Publishing Rule Engine.
Appends the human-readable reason of every truthy hard-reject signal (in
table order), then decides REJECT exactly when the reason list is nonempty. -/
def apply_publishing_rules (signals : Dict) : String × List String :=
  let rejection_reasons :=
    hard_reject_checks.foldl
      (fun acc p =>
        if truthy (dget signals p.1 (.b false)) then acc ++ [rejectionReasonText p.2]
        else acc)
      []
  (if rejection_reasons.isEmpty then "PUBLISH" else "REJECT", rejection_reasons)

/-- ReviewAnalyzer._get_sentiment_tag. -/
def get_sentiment_tag (sentiment : String) : String :=
  if SENTIMENT_TAGS.contains sentiment then sentiment else "SENTIMENT_NEUTRAL"

/-- The special_tag_map of ReviewAnalyzer._generate_tags, in source order. -/
def special_tag_map : List (String × String) :=
  [("price_mentioned", "PRICE_MENTIONED"),
   ("owner_name_mentioned", "OWNER_MENTIONED"),
   ("phone_email_present", "CONTACT_INFO_MENTIONED"),
   ("abusive_language", "ABUSIVE_CONTENT"),
   ("spam_or_links", "SPAM_SUSPECT")]

/-- The deduplication loop at the end of ReviewAnalyzer._generate_tags:
keep the first occurrence of each tag, tracking the set of seen tags. -/
def dedupKeepFirst : List String → List String → List String
  | [], _ => []
  | t :: ts, seen =>
      if seen.contains t then dedupKeepFirst ts seen
      else t :: dedupKeepFirst ts (t :: seen)

/-- ReviewAnalyzer._generate_tags: the Tag Synthesizer.  Builds the list
sentiment tag, allow-listed topic tags, special tags of truthy signals, and
deduplicates it keeping first occurrences. -/
def generate_tags (signals : Dict) (topic_tags : List String) (sentiment_tag : String) : List String :=
  let tags :=
    sentiment_tag ::
      (topic_tags.filter (fun t => TOPIC_TAGS.contains t) ++
        special_tag_map.foldl
          (fun acc p =>
            if truthy (dget signals p.1 (.b false)) then acc ++ [p.2] else acc)
          [])
  dedupKeepFirst tags []

/-- ReviewAnalyzer._auto_summarize. -/
def auto_summarize (review_text : String) : String :=
  if review_text.length ≤ 150 then review_text else review_text.take 150 ++ "..."

/-- ReviewAnalyzer._get_default_signals, in source key order. -/
def get_default_signals : Dict :=
  [("price_mentioned", .b false),
   ("owner_name_mentioned", .b false),
   ("phone_email_present", .b false),
   ("abusive_language", .b false),
   ("spam_or_links", .b false),
   ("hate_sexual_violent", .b false),
   ("too_short", .b false),
   ("summary", .s ""),
   ("sentiment", .s "SENTIMENT_NEUTRAL")]

/-- The analysis record returned by ReviewAnalyzer.analyze_review. -/
structure AnalysisResult where
  review_id : String
  hotel_id : String
  rating : Int
  review_text : String
  summary : String
  sentiment : String
  publish_decision : String
  rejection_reasons : List String
  tags : List String
  detected_signals : Dict
  flags : List String
  model_name : String
  prompt_version : String
deriving DecidableEq

/-- config.LLM_MODEL, recorded as provenance in every result. -/
def LLM_MODEL : String := "mixtral-8x7b-32768"

/-- prompts.PROMPT_VERSION. -/
def PROMPT_VERSION : String := "v1.0"

/-- ReviewAnalyzer._get_safe_default_analysis: the Fallback Analyzer. -/
def get_safe_default_analysis (review_id hotel_id : String) (rating : Int)
    (review_text : String) : AnalysisResult :=
  let signals := enhance_signals_with_regex review_text get_default_signals
  let pd := apply_publishing_rules signals
  let sentiment := "SENTIMENT_NEUTRAL"
  { review_id := review_id
    hotel_id := hotel_id
    rating := rating
    review_text := review_text
    summary := if review_text.length > 150 then review_text.take 150 ++ "..." else review_text
    sentiment := sentiment
    publish_decision := pd.1
    rejection_reasons := pd.2
    tags := [get_sentiment_tag sentiment]
    detected_signals := signals
    flags := ["llm_analysis_failed"]
    model_name := LLM_MODEL
    prompt_version := PROMPT_VERSION }

/-- The parsed JSON object of a model response, with the five top-level
keys the code reads; `none` models an absent key.  Responses whose fields
are not of these shapes (for instance a non-object under signals) raise
inside the extractor's try block and are covered by the error outcomes of
`LLMCall`. -/
structure JsonAnalysis where
  signals : Option Dict
  topic_tags : Option (List String)
  flags : Option (List String)
  summary : Option String
  sentiment : Option String

/-- The outcome of the model call as seen inside
ReviewAnalyzer._analyze_with_llm: an API/transport error, a JSON decoding
error, or a successfully parsed response. -/
inductive LLMCall where
  | apiError
  | jsonError
  | parsed (a : JsonAnalysis)

/-- ReviewAnalyzer._analyze_with_llm: the Signal Extractor adapter.  Both
error outcomes return the default signal set with empty topic tags and
flags; a parsed response has its missing top-level keys defaulted, and its
summary and sentiment strings are stored into the signals dict. -/
def analyze_with_llm : LLMCall → Dict × List String × List String
  | .apiError => (get_default_signals, [], [])
  | .jsonError => (get_default_signals, [], [])
  | .parsed a =>
      let signals := a.signals.getD []
      let topic_tags := a.topic_tags.getD []
      let flags := a.flags.getD []
      let summary := a.summary.getD ""
      let sentiment := a.sentiment.getD "SENTIMENT_NEUTRAL"
      let signals := dset signals "summary" (.s summary)
      let signals := dset signals "sentiment" (.s sentiment)
      (signals, topic_tags, flags)

/-- The fate of the whole extraction path as seen by
ReviewAnalyzer.analyze_review: either some step of the body raised an
unrecoverable exception (caught by the outer handler), or the body ran with
the given extractor outcome. -/
inductive LLMResult where
  | exn
  | ok (call : LLMCall)

/-- The string stored under a dict key.  The pipeline only ever stores
`SVal.s` values under summary and sentiment; a non-string (impossible here)
would not be a member of SENTIMENT_TAGS, exactly like the empty string. -/
def svalStr : SVal → String
  | .s v => v
  | _ => ""

/-- ReviewAnalyzer.analyze_review: the full per-review pipeline.  The
`outcome` parameter makes the external call and the outer exception handler
explicit; every branch returns a record, so the embedding is total exactly
as the source never propagates a per-review exception. -/
def analyze_review (outcome : LLMResult) (review_id hotel_id : String)
    (rating : Int) (review_text : String) : AnalysisResult :=
  match outcome with
  | .exn => get_safe_default_analysis review_id hotel_id rating review_text
  | .ok call =>
      let out := analyze_with_llm call
      let topic_tags := out.2.1
      let flags := out.2.2
      let signals := enhance_signals_with_regex review_text out.1
      let sentiment := determine_sentiment (svalStr (dget signals "sentiment" .null)) rating
      let pd := apply_publishing_rules signals
      let sentiment_tag := get_sentiment_tag sentiment
      let all_tags := generate_tags signals topic_tags sentiment_tag
      let summary := svalStr (dget signals "summary" (.s (auto_summarize review_text)))
      { review_id := review_id
        hotel_id := hotel_id
        rating := rating
        review_text := review_text
        summary := summary
        sentiment := sentiment
        publish_decision := pd.1
        rejection_reasons := pd.2
        tags := all_tags
        detected_signals := signals
        flags := flags
        model_name := LLM_MODEL
        prompt_version := PROMPT_VERSION }

/-- Truthiness of a named signal in a signal set, i.e. the Python test
`if signals.get(key, False):`. -/
def signalOn (d : Dict) (k : String) : Bool := truthy (dget d k (.b false))

/-! ### Predicates used by the claim statements -/

/-- The pattern sequence occurs as a contiguous substring of the text. -/
def containsSeq (pat cs : List Char) : Bool :=
  reSearch (fun l => pat.isPrefixOf l) cs

/-- The text contains ten consecutive digit characters somewhere. -/
def containsTenDigitRun : List Char → Bool
  | [] => false
  | c :: cs => repThen Char.isDigit 10 acceptAll (c :: cs) || containsTenDigitRun cs

/-- The closed key set of a SignalSet: the seven boolean signal names plus
sentiment and summary. -/
def closed_signal_keys : List String :=
  ["price_mentioned", "owner_name_mentioned", "phone_email_present",
   "abusive_language", "spam_or_links", "hate_sexual_violent", "too_short",
   "sentiment", "summary"]

/-- The keys of the signals object the extractor reported, before the
engine touches them ([] when the extractor failed or returned none). -/
def extractor_reported_keys : LLMResult → List String
  | .exn => []
  | .ok (.parsed a) => dkeys (a.signals.getD [])
  | .ok _ => []

/-! ## Helper lemmas -/

theorem dget_dset_self (d : Dict) (k : String) (v dflt : SVal) :
    dget (dset d k v) k dflt = v := by
  induction d with
  | nil => simp [dset, dget]
  | cons p rest ih =>
      obtain ⟨k', v'⟩ := p
      by_cases h : k' = k
      · simp [dset, h, dget]
      · simp [dset, h, dget, ih]

theorem dget_dset_ne (d : Dict) (k k' : String) (v dflt : SVal) (h : k ≠ k') :
    dget (dset d k v) k' dflt = dget d k' dflt := by
  induction d with
  | nil => simp [dset, dget, h]
  | cons p rest ih =>
      obtain ⟨a, b⟩ := p
      by_cases ha : a = k
      · subst ha
        simp [dset, dget, h]
      · simp [dset, dget, ha, ih]

theorem dkeys_cons (a : String) (b : SVal) (rest : Dict) :
    dkeys ((a, b) :: rest) = a :: dkeys rest := rfl

theorem mem_dkeys_dset :
    ∀ (d : Dict) (k k' : String) (v : SVal),
      k' ∈ dkeys (dset d k v) → k' ∈ dkeys d ∨ k' = k := by
  intro d
  induction d with
  | nil =>
      intro k k' v h
      simp [dset, dkeys] at h
      exact Or.inr h
  | cons p rest ih =>
      intro k k' v h
      obtain ⟨a, b⟩ := p
      by_cases ha : a = k
      · subst ha
        rw [show dset ((a, b) :: rest) a v = (a, v) :: rest from by simp [dset]] at h
        rw [dkeys_cons] at h
        rw [dkeys_cons]
        exact Or.inl h
      · rw [show dset ((a, b) :: rest) k v = (a, b) :: dset rest k v from by simp [dset, ha]] at h
        rw [dkeys_cons] at h
        rw [dkeys_cons]
        rcases List.mem_cons.1 h with h | h
        · exact Or.inl (List.mem_cons.2 (Or.inl h))
        · rcases ih k k' v h with h' | h'
          · exact Or.inl (List.mem_cons.2 (Or.inr h'))
          · exact Or.inr h'

theorem applySteps_dget_other :
    ∀ (steps : List (Bool × String)) (d : Dict) (k : String) (v : SVal),
      (∀ s ∈ steps, s.2 ≠ k) →
      dget (applySteps steps d) k v = dget d k v := by
  intro steps
  induction steps with
  | nil => intro d k v _; rfl
  | cons s rest ih =>
      intro d k v h
      obtain ⟨c, key⟩ := s
      have hkey : key ≠ k := h (c, key) (by simp)
      have hrest : ∀ s ∈ rest, s.2 ≠ k := fun s hs => h s (by simp [hs])
      show dget (applySteps rest (if c then dset d key (.b true) else d)) k v = dget d k v
      rw [ih _ _ _ hrest]
      cases c with
      | false => simp
      | true => simp [dget_dset_ne _ _ _ _ _ hkey]

theorem applySteps_mono :
    ∀ (steps : List (Bool × String)) (d : Dict) (k : String),
      dget (applySteps steps d) k (.b false) = dget d k (.b false) ∨
      dget (applySteps steps d) k (.b false) = .b true := by
  intro steps
  induction steps with
  | nil => intro d k; exact Or.inl rfl
  | cons s rest ih =>
      intro d k
      obtain ⟨c, key⟩ := s
      have step :
          dget (if c then dset d key (.b true) else d) k (.b false) = dget d k (.b false) ∨
          dget (if c then dset d key (.b true) else d) k (.b false) = .b true := by
        cases c with
        | false => exact Or.inl rfl
        | true =>
            by_cases hk : key = k
            · subst hk
              simp [dget_dset_self]
            · simp [dget_dset_ne _ _ _ _ _ hk]
      have chain := ih (if c then dset d key (.b true) else d) k
      show dget (applySteps rest (if c then dset d key (.b true) else d)) k (.b false) =
          dget d k (.b false) ∨
        dget (applySteps rest (if c then dset d key (.b true) else d)) k (.b false) = .b true
      rcases chain with h | h
      · rcases step with h' | h'
        · exact Or.inl (h.trans h')
        · exact Or.inr (h.trans h')
      · exact Or.inr h

theorem applySteps_keys :
    ∀ (steps : List (Bool × String)) (d : Dict) (k : String),
      k ∈ dkeys (applySteps steps d) → k ∈ dkeys d ∨ k ∈ steps.map Prod.snd := by
  intro steps
  induction steps with
  | nil => intro d k h; exact Or.inl h
  | cons s rest ih =>
      intro d k h
      obtain ⟨c, key⟩ := s
      have h' : k ∈ dkeys (if c then dset d key (.b true) else d) ∨ k ∈ rest.map Prod.snd :=
        ih _ _ h
      rcases h' with h' | h'
      · cases c with
        | false => exact Or.inl h'
        | true =>
            rcases mem_dkeys_dset d key k (.b true) (by simpa using h') with h'' | h''
            · exact Or.inl h''
            · exact Or.inr (by simp [h''])
      · exact Or.inr (by simp [h'])

theorem starThen_acceptAll (p : Char → Bool) (cs : List Char) :
    starThen p acceptAll cs = true := by
  cases cs <;> simp [starThen, acceptAll]

theorem search_mono {p q : List Char → Bool} (h : ∀ l, p l = true → q l = true) :
    ∀ cs, reSearch p cs = true → reSearch q cs = true := by
  intro cs
  induction cs with
  | nil => intro hp; exact h _ hp
  | cons c cs ih =>
      intro hp
      simp only [reSearch, Bool.or_eq_true] at hp ⊢
      rcases hp with hp | hp
      · exact Or.inl (h _ hp)
      · exact Or.inr (ih hp)

theorem reSearch_map (p : List Char → Bool) (f : Char → Char) :
    ∀ cs, reSearch p (cs.map f) = reSearch (fun l => p (l.map f)) cs := by
  intro cs
  induction cs with
  | nil => rfl
  | cons c cs ih => simp [reSearch, ih]

theorem prefixOf_exists : ∀ {pat l : List Char}, pat.isPrefixOf l = true → ∃ r, l = pat ++ r := by
  intro pat
  induction pat with
  | nil => intro l _; exact ⟨l, rfl⟩
  | cons p ps ih =>
      intro l h
      cases l with
      | nil => exact absurd h (by simp [List.isPrefixOf])
      | cons c cs =>
          simp only [List.isPrefixOf, Bool.and_eq_true, beq_iff_eq] at h
          obtain ⟨r, hr⟩ := ih h.2
          exact ⟨r, by simp [h.1, hr]⟩

theorem dedupKeepFirst_mem :
    ∀ (ts seen : List String) (x : String),
      x ∈ dedupKeepFirst ts seen → seen.contains x = false := by
  intro ts
  induction ts with
  | nil => intro seen x h; simp [dedupKeepFirst] at h
  | cons t ts ih =>
      intro seen x h
      by_cases hc : seen.contains t
      · rw [dedupKeepFirst, if_pos hc] at h
        exact ih _ _ h
      · rw [dedupKeepFirst, if_neg hc] at h
        rcases List.mem_cons.1 h with rfl | h
        · exact Bool.not_eq_true _ ▸ by simpa using hc
        · have := ih (t :: seen) x h
          simp [List.contains_cons] at this
          simpa using this.2

theorem pricePat0_hit (r : List Char) :
    pricePat0 ('₹' :: '5' :: '0' :: '0' :: '0' :: r) = true := by
  have h5 : Char.isDigit '5' = true := by decide
  simp [pricePat0, litThen, starThen, plusThen, h5, starThen_acceptAll]

theorem pricePat1_hit (r : List Char) :
    pricePat1 ('r' :: 's' :: '.' :: ' ' :: '5' :: '0' :: '0' :: '0' :: r) = true := by
  have h5 : Char.isDigit '5' = true := by decide
  have hsp : isPySpace ' ' = true := by decide
  have hd : Char.isDigit ' ' = false := by decide
  simp [pricePat1, strThen, optCharThen, starThen, plusThen, h5, hsp, hd, starThen_acceptAll]

theorem pricePat3_hit (r : List Char) :
    pricePat3 ('p' :: 'a' :: 'i' :: 'd' :: ' ' :: '5' :: '0' :: '0' :: '0' :: r) = true := by
  have h5 : Char.isDigit '5' = true := by decide
  have hsp : isPySpace ' ' = true := by decide
  have hd : Char.isDigit ' ' = false := by decide
  have hw : isWordChar ' ' = false := by decide
  simp [pricePat3, amountTail, strThen, starThen, plusThen, h5, hsp, hd, hw, starThen_acceptAll]

theorem applySteps_cons (c : Bool) (key : String) (rest : List (Bool × String)) (d : Dict) :
    applySteps ((c, key) :: rest) d =
      applySteps rest (if c then dset d key (.b true) else d) := rfl

theorem enhance_sets_price {text : String} {d : Dict}
    (h : PRICE_PATTERNS.any (fun p => reSearch p (pyLower text.data)) = true) :
    dget (enhance_signals_with_regex text d) "price_mentioned" (.b false) = .b true := by
  simp only [enhance_signals_with_regex]
  rw [h, applySteps_cons, if_pos (rfl : (true : Bool) = true), applySteps_dget_other]
  · exact dget_dset_self _ _ _ _
  · intro s hs
    simp only [List.mem_cons, List.not_mem_nil, or_false] at hs
    rcases hs with rfl | rfl | rfl | rfl | rfl <;> simp

theorem enhance_sets_phone {text : String} {d : Dict}
    (h : CONTACT_PATTERNS.any (fun p => reSearchB p none text.data) = true) :
    dget (enhance_signals_with_regex text d) "phone_email_present" (.b false) = .b true := by
  simp only [enhance_signals_with_regex]
  rw [h, applySteps_cons, applySteps_cons, if_pos (rfl : (true : Bool) = true),
    applySteps_dget_other]
  · exact dget_dset_self _ _ _ _
  · intro s hs
    simp only [List.mem_cons, List.not_mem_nil, or_false] at hs
    rcases hs with rfl | rfl | rfl | rfl <;> simp

theorem dedupKeepFirst_nodup :
    ∀ (ts seen : List String), (dedupKeepFirst ts seen).Nodup := by
  intro ts
  induction ts with
  | nil => intro seen; simp [dedupKeepFirst]
  | cons t ts ih =>
      intro seen
      by_cases hc : seen.contains t
      · rw [dedupKeepFirst, if_pos hc]; exact ih seen
      · rw [dedupKeepFirst, if_neg hc]
        refine List.nodup_cons.2 ⟨?_, ih (t :: seen)⟩
        intro hmem
        have := dedupKeepFirst_mem ts (t :: seen) t hmem
        simp [List.contains_cons] at this

/-- The record field equations of the two branches of analyze_review. -/
theorem detected_signals_exn (rid hid : String) (rating : Int) (text : String) :
    (analyze_review .exn rid hid rating text).detected_signals =
      enhance_signals_with_regex text get_default_signals := rfl

theorem detected_signals_ok (call : LLMCall) (rid hid : String) (rating : Int) (text : String) :
    (analyze_review (.ok call) rid hid rating text).detected_signals =
      enhance_signals_with_regex text (analyze_with_llm call).1 := rfl

theorem mem_default_keys_closed {k : String} (h : k ∈ dkeys get_default_signals) :
    k ∈ closed_signal_keys := by
  simp [get_default_signals, dkeys] at h
  rcases h with rfl | rfl | rfl | rfl | rfl | rfl | rfl | rfl | rfl <;> decide

/-! ## The claims -/

/-- Claim C1: the Publishing Rule Engine returns REJECT exactly when one of
the six reject signals is truthy, and the rejection-reason list is exactly
the human-readable reason of each truthy reject signal in the fixed table
order; too_short does not occur in the table, so it never contributes. -/
theorem publishing_rules_spec (d : Dict) :
    (apply_publishing_rules d).2 =
      ((if signalOn d "price_mentioned" then ["Price, tariff, or monetary amount mentioned"] else []) ++
       (if signalOn d "owner_name_mentioned" then ["Hotel owner or manager name mentioned"] else []) ++
       (if signalOn d "phone_email_present" then ["Phone number or email address present"] else []) ++
       (if signalOn d "abusive_language" then ["Contains profanity or abusive language"] else []) ++
       (if signalOn d "spam_or_links" then ["Contains spam, advertisements, or links"] else []) ++
       (if signalOn d "hate_sexual_violent" then ["Contains hate speech, sexual, or violent content"] else [])) ∧
    (apply_publishing_rules d).1 =
      (if signalOn d "price_mentioned" || signalOn d "owner_name_mentioned" ||
          signalOn d "phone_email_present" || signalOn d "abusive_language" ||
          signalOn d "spam_or_links" || signalOn d "hate_sexual_violent"
       then "REJECT" else "PUBLISH") ∧
    ((apply_publishing_rules d).1 == "REJECT") =
      (signalOn d "price_mentioned" || signalOn d "owner_name_mentioned" ||
       signalOn d "phone_email_present" || signalOn d "abusive_language" ||
       signalOn d "spam_or_links" || signalOn d "hate_sexual_violent") := by
  have r1 : rejectionReasonText "PRICE_MENTIONED" = "Price, tariff, or monetary amount mentioned" := rfl
  have r2 : rejectionReasonText "OWNER_MENTIONED" = "Hotel owner or manager name mentioned" := rfl
  have r3 : rejectionReasonText "CONTACT_INFO" = "Phone number or email address present" := rfl
  have r4 : rejectionReasonText "ABUSIVE_LANGUAGE" = "Contains profanity or abusive language" := rfl
  have r5 : rejectionReasonText "SPAM_LINKS" = "Contains spam, advertisements, or links" := rfl
  have r6 : rejectionReasonText "HATE_SEXUAL_VIOLENT" = "Contains hate speech, sexual, or violent content" := rfl
  by_cases h1 : truthy (dget d "price_mentioned" (.b false)) = true <;>
  by_cases h2 : truthy (dget d "owner_name_mentioned" (.b false)) = true <;>
  by_cases h3 : truthy (dget d "phone_email_present" (.b false)) = true <;>
  by_cases h4 : truthy (dget d "abusive_language" (.b false)) = true <;>
  by_cases h5 : truthy (dget d "spam_or_links" (.b false)) = true <;>
  by_cases h6 : truthy (dget d "hate_sexual_violent" (.b false)) = true <;>
  simp [apply_publishing_rules, hard_reject_checks, signalOn,
    r1, r2, r3, r4, r5, r6, h1, h2, h3, h4, h5, h6]

/-- Claim C2: the Sentiment Reconciler first coerces unrecognized values to
neutral, then overrides negative to positive at rating four or more and
positive to negative at rating two or less; neutral is never overridden and
rating three never triggers an override. -/
theorem sentiment_reconciler_spec (s : String) (r : Int) :
    determine_sentiment s r =
      (let c := if SENTIMENT_TAGS.contains s then s else "SENTIMENT_NEUTRAL"
       if 4 ≤ r ∧ c = "SENTIMENT_NEGATIVE" then "SENTIMENT_POSITIVE"
       else if r ≤ 2 ∧ c = "SENTIMENT_POSITIVE" then "SENTIMENT_NEGATIVE"
       else c) ∧
    determine_sentiment "SENTIMENT_NEUTRAL" r = "SENTIMENT_NEUTRAL" ∧
    determine_sentiment s 3 = (if SENTIMENT_TAGS.contains s then s else "SENTIMENT_NEUTRAL") := by
  refine ⟨rfl, ?_, ?_⟩
  · have hn : ("SENTIMENT_NEUTRAL" : String) ≠ "SENTIMENT_NEGATIVE" := by decide
    have hp : ("SENTIMENT_NEUTRAL" : String) ≠ "SENTIMENT_POSITIVE" := by decide
    have hc : SENTIMENT_TAGS.contains "SENTIMENT_NEUTRAL" = true := by decide
    simp [determine_sentiment, hn, hp, hc]
  · have h43 : ¬((4 : Int) ≤ 3) := by decide
    have h32 : ¬((3 : Int) ≤ 2) := by decide
    simp [determine_sentiment, h43, h32]

/-- Claim C3: the Pattern Matcher enhancement is additive only — a truthy
signal stays truthy, every signal is either untouched or set to the boolean
true, and the sentiment and summary entries are never modified. -/
theorem enhance_additive (text : String) (d : Dict) (k : String) (v : SVal) :
    (truthy (dget d k (.b false)) = true →
      truthy (dget (enhance_signals_with_regex text d) k (.b false)) = true) ∧
    (dget (enhance_signals_with_regex text d) k (.b false) = dget d k (.b false) ∨
      dget (enhance_signals_with_regex text d) k (.b false) = .b true) ∧
    dget (enhance_signals_with_regex text d) "sentiment" v = dget d "sentiment" v ∧
    dget (enhance_signals_with_regex text d) "summary" v = dget d "summary" v := by
  have h2 : dget (enhance_signals_with_regex text d) k (.b false) = dget d k (.b false) ∨
      dget (enhance_signals_with_regex text d) k (.b false) = .b true := by
    simp only [enhance_signals_with_regex]
    exact applySteps_mono _ d k
  refine ⟨?_, h2, ?_, ?_⟩
  · intro ht
    rcases h2 with h | h
    · rw [h]; exact ht
    · rw [h]; rfl
  · simp only [enhance_signals_with_regex]
    refine applySteps_dget_other _ d "sentiment" v ?_
    intro s hs
    simp only [List.mem_cons, List.not_mem_nil, or_false] at hs
    rcases hs with rfl | rfl | rfl | rfl | rfl | rfl <;> simp
  · simp only [enhance_signals_with_regex]
    refine applySteps_dget_other _ d "summary" v ?_
    intro s hs
    simp only [List.mem_cons, List.not_mem_nil, or_false] at hs
    rcases hs with rfl | rfl | rfl | rfl | rfl | rfl <;> simp

/-- Witness for C3: a concrete truthy signal survives enhancement. -/
theorem enhance_additive_witness :
    truthy (dget (enhance_signals_with_regex "ok" [("abusive_language", SVal.b true)])
      "abusive_language" (.b false)) = true :=
  (enhance_additive "ok" [("abusive_language", SVal.b true)] "abusive_language" SVal.null).1
    (by decide)

/-- Claim C4: on an unrecoverable extraction failure, analyze_review returns
the fallback record: neutral sentiment, the 150-character naive summary, the
single flag llm_analysis_failed, and a publish decision and reason list
obtained by running the Rule Engine on the default signal set enhanced by
the Pattern Matcher.  The embedding of analyze_review is total, matching
the source contract that per-review analysis never raises. -/
theorem fallback_spec (rid hid : String) (rating : Int) (text : String) :
    (analyze_review .exn rid hid rating text).sentiment = "SENTIMENT_NEUTRAL" ∧
    (analyze_review .exn rid hid rating text).summary =
      (if text.length > 150 then text.take 150 ++ "..." else text) ∧
    (analyze_review .exn rid hid rating text).flags = ["llm_analysis_failed"] ∧
    (analyze_review .exn rid hid rating text).publish_decision =
      (apply_publishing_rules (enhance_signals_with_regex text get_default_signals)).1 ∧
    (analyze_review .exn rid hid rating text).rejection_reasons =
      (apply_publishing_rules (enhance_signals_with_regex text get_default_signals)).2 ∧
    (analyze_review .exn rid hid rating text).detected_signals =
      enhance_signals_with_regex text get_default_signals :=
  ⟨rfl, rfl, rfl, rfl, rfl, rfl⟩

/-- Claim C5: on a JSON-parse failure or an API error the Signal Extractor
returns the default signal set (all seven booleans false, neutral sentiment,
empty summary) with empty topic tags and empty flags; the surrounding
pipeline continues on this value, it is not aborted. -/
theorem extractor_failure_defaults :
    analyze_with_llm .apiError = (get_default_signals, [], []) ∧
    analyze_with_llm .jsonError = (get_default_signals, [], []) ∧
    (["price_mentioned", "owner_name_mentioned", "phone_email_present", "abusive_language",
      "spam_or_links", "hate_sexual_violent", "too_short"].all
        (fun k => dget get_default_signals k SVal.null == SVal.b false)) = true ∧
    dget get_default_signals "sentiment" SVal.null = SVal.s "SENTIMENT_NEUTRAL" ∧
    dget get_default_signals "summary" SVal.null = SVal.s "" :=
  ⟨rfl, rfl, by decide, by decide, by decide⟩

/-- Claim C6: the Tag Synthesizer output is the deduplication (keeping first
occurrences) of the sentiment tag, the allow-listed topic tags in input
order, and the special tags of truthy signals in the fixed map order; it has
no duplicates and its first element is the sentiment tag. -/
theorem tag_synthesizer_spec (d : Dict) (topic_tags : List String) (st : String) :
    generate_tags d topic_tags st =
      dedupKeepFirst
        (st :: (topic_tags.filter (fun t => TOPIC_TAGS.contains t) ++
          ((if signalOn d "price_mentioned" then ["PRICE_MENTIONED"] else []) ++
           (if signalOn d "owner_name_mentioned" then ["OWNER_MENTIONED"] else []) ++
           (if signalOn d "phone_email_present" then ["CONTACT_INFO_MENTIONED"] else []) ++
           (if signalOn d "abusive_language" then ["ABUSIVE_CONTENT"] else []) ++
           (if signalOn d "spam_or_links" then ["SPAM_SUSPECT"] else [])))) [] ∧
    (generate_tags d topic_tags st).Nodup ∧
    (generate_tags d topic_tags st).head? = some st := by
  refine ⟨?_, ?_, ?_⟩
  · by_cases h1 : truthy (dget d "price_mentioned" (.b false)) = true <;>
    by_cases h2 : truthy (dget d "owner_name_mentioned" (.b false)) = true <;>
    by_cases h3 : truthy (dget d "phone_email_present" (.b false)) = true <;>
    by_cases h4 : truthy (dget d "abusive_language" (.b false)) = true <;>
    by_cases h5 : truthy (dget d "spam_or_links" (.b false)) = true <;>
    simp [generate_tags, special_tag_map, signalOn, h1, h2, h3, h4, h5]
  · exact dedupKeepFirst_nodup _ _
  · rfl

/-- Claim C7, counterexample: a text with an eleven-digit run contains a
ten-digit substring, but the word-boundary-delimited contact pattern does
not match it, so the enhancement leaves phone_email_present untouched. -/
theorem ten_digit_substring_counterexample :
    ¬ (∀ (text : String) (signals : Dict),
        containsTenDigitRun text.data = true →
        signalOn (enhance_signals_with_regex text signals) "phone_email_present" = true) := by
  intro hclaim
  have := hclaim "12345678901" get_default_signals (by decide)
  exact absurd this (by decide)

/-- Claim C7 (amended): for every text in which the ten-digit contact
pattern — ten consecutive digits delimited by word boundaries — matches,
the enhancement sets phone_email_present to true regardless of the
extractor-reported signals. -/
theorem bounded_ten_digit_sets_phone (text : String) (signals : Dict)
    (h : reSearchB contactPat0 none text.data = true) :
    signalOn (enhance_signals_with_regex text signals) "phone_email_present" = true := by
  have hany : CONTACT_PATTERNS.any (fun p => reSearchB p none text.data) = true := by
    simp [CONTACT_PATTERNS, h]
  have hset := enhance_sets_phone (d := signals) hany
  simp [signalOn, hset, truthy]

/-- Witness for the amended C7 at a concrete input. -/
theorem bounded_ten_digit_sets_phone_witness :
    signalOn (enhance_signals_with_regex "call 1234567890 now" get_default_signals)
      "phone_email_present" = true :=
  bounded_ten_digit_sets_phone "call 1234567890 now" get_default_signals (by decide)

/-- Claim C8: a text containing one of the three price phrases as a
substring always has price_mentioned set by the enhancement. -/
theorem price_substring_sets_price (text : String) (signals : Dict)
    (h : containsSeq "₹5000".data text.data = true ∨
         containsSeq "Rs. 5000".data text.data = true ∨
         containsSeq "paid 5000".data text.data = true) :
    signalOn (enhance_signals_with_regex text signals) "price_mentioned" = true := by
  have hp : PRICE_PATTERNS.any (fun p => reSearch p (pyLower text.data)) = true := by
    rcases h with h | h | h
    · have h0 : reSearch pricePat0 (pyLower text.data) = true := by
        rw [pyLower, reSearch_map]
        refine search_mono (p := fun l => "₹5000".data.isPrefixOf l) ?_ _ h
        intro l hl
        obtain ⟨r, rfl⟩ := prefixOf_exists hl
        rw [List.map_append]
        rw [show ("₹5000".data.map Char.toLower) = ['₹', '5', '0', '0', '0'] from by decide]
        simpa using pricePat0_hit (r.map Char.toLower)
      simp [PRICE_PATTERNS, h0]
    · have h0 : reSearch pricePat1 (pyLower text.data) = true := by
        rw [pyLower, reSearch_map]
        refine search_mono (p := fun l => "Rs. 5000".data.isPrefixOf l) ?_ _ h
        intro l hl
        obtain ⟨r, rfl⟩ := prefixOf_exists hl
        rw [List.map_append]
        rw [show ("Rs. 5000".data.map Char.toLower) =
          ['r', 's', '.', ' ', '5', '0', '0', '0'] from by decide]
        simpa using pricePat1_hit (r.map Char.toLower)
      simp [PRICE_PATTERNS, h0]
    · have h0 : reSearch pricePat3 (pyLower text.data) = true := by
        rw [pyLower, reSearch_map]
        refine search_mono (p := fun l => "paid 5000".data.isPrefixOf l) ?_ _ h
        intro l hl
        obtain ⟨r, rfl⟩ := prefixOf_exists hl
        rw [List.map_append]
        rw [show ("paid 5000".data.map Char.toLower) =
          ['p', 'a', 'i', 'd', ' ', '5', '0', '0', '0'] from by decide]
        simpa using pricePat3_hit (r.map Char.toLower)
      simp [PRICE_PATTERNS, h0]
  have hset := enhance_sets_price (d := signals) hp
  simp [signalOn, hset, truthy]

/-- Witness for C8 at a concrete input. -/
theorem price_substring_sets_price_witness :
    signalOn (enhance_signals_with_regex "I paid 5000 yesterday" get_default_signals)
      "price_mentioned" = true :=
  price_substring_sets_price "I paid 5000 yesterday" get_default_signals
    (Or.inr (Or.inr (by decide)))

/-- Claim C9, counterexample: a parsed model response whose signals object
holds an unknown key makes that key reach the record's detected signals, so
the output signal set is not confined to the closed key set. -/
theorem signal_keys_counterexample :
    ¬ (∀ (outcome : LLMResult) (rid hid : String) (rating : Int) (text : String) (k : String),
        k ∈ dkeys (analyze_review outcome rid hid rating text).detected_signals →
        k ∈ closed_signal_keys) := by
  intro hclaim
  have := hclaim (.ok (.parsed ⟨some [("junk", SVal.b true)], none, none, none, none⟩))
      "r1" "h1" 5 "hi" "junk" (by decide)
  exact absurd this (by decide)

/-- Claim C9 (amended): the engine itself introduces no key outside the
closed signal-key set — every key of the output signal set comes either
from the extractor-reported signals object or from the closed set — and
missing keys are treated as their defaults: an absent summary key becomes
the empty string, an absent sentiment key becomes neutral, and a key absent
from a dict reads as the boolean false, which is how the Rule Engine and
Tag Synthesizer consult signals. -/
theorem signal_keys_spec :
    (∀ (outcome : LLMResult) (rid hid : String) (rating : Int) (text : String) (k : String),
        k ∈ dkeys (analyze_review outcome rid hid rating text).detected_signals →
        k ∈ extractor_reported_keys outcome ∨ k ∈ closed_signal_keys) ∧
    (∀ a : JsonAnalysis, a.summary = none →
        dget (analyze_with_llm (.parsed a)).1 "summary" SVal.null = SVal.s "") ∧
    (∀ a : JsonAnalysis, a.sentiment = none →
        dget (analyze_with_llm (.parsed a)).1 "sentiment" SVal.null =
          SVal.s "SENTIMENT_NEUTRAL") ∧
    (∀ (d : Dict) (k : String), k ∉ dkeys d → dget d k (.b false) = .b false) := by
  refine ⟨?_, ?_, ?_, ?_⟩
  · intro outcome rid hid rating text k hk
    have hstep : ∀ k' ∈ ([(PRICE_PATTERNS.any fun p => reSearch p (pyLower text.data), "price_mentioned"),
        (CONTACT_PATTERNS.any fun p => reSearchB p none text.data, "phone_email_present"),
        (OWNER_NAME_PATTERNS.any fun p => reSearch p (pyLower text.data), "owner_name_mentioned"),
        (PROFANITY_PATTERNS.any fun p => reSearchB p none (pyLower text.data), "abusive_language"),
        (SUSPICIOUS_LINK_PATTERNS.any fun p => reSearch p text.data, "spam_or_links"),
        (decide (countWords text.data < 15), "too_short")].map Prod.snd),
        k' ∈ closed_signal_keys := by
      intro k' hk'
      simp only [List.map_cons, List.map_nil, List.mem_cons, List.not_mem_nil, or_false] at hk'
      rcases hk' with rfl | rfl | rfl | rfl | rfl | rfl <;> decide
    cases outcome with
    | exn =>
        rw [detected_signals_exn] at hk
        simp only [enhance_signals_with_regex] at hk
        rcases applySteps_keys _ _ _ hk with h | h
        · exact Or.inr (mem_default_keys_closed h)
        · exact Or.inr (hstep _ h)
    | ok call =>
        rw [detected_signals_ok] at hk
        simp only [enhance_signals_with_regex] at hk
        rcases applySteps_keys _ _ _ hk with h | h
        · cases call with
          | apiError => exact Or.inr (mem_default_keys_closed h)
          | jsonError => exact Or.inr (mem_default_keys_closed h)
          | parsed a =>
              rw [show (analyze_with_llm (.parsed a)).1 =
                  dset (dset (a.signals.getD []) "summary" (.s (a.summary.getD "")))
                    "sentiment" (.s (a.sentiment.getD "SENTIMENT_NEUTRAL")) from rfl] at h
              rcases mem_dkeys_dset _ _ _ _ h with h' | h'
              · rcases mem_dkeys_dset _ _ _ _ h' with h'' | h''
                · exact Or.inl h''
                · exact Or.inr (by rw [h'']; decide)
              · exact Or.inr (by rw [h']; decide)
        · exact Or.inr (hstep _ h)
  · intro a ha
    show dget (dset (dset (a.signals.getD []) "summary" (.s (a.summary.getD "")))
      "sentiment" (.s (a.sentiment.getD "SENTIMENT_NEUTRAL"))) "summary" SVal.null = SVal.s ""
    rw [dget_dset_ne _ _ _ _ _ (by decide : ("sentiment" : String) ≠ "summary"),
      dget_dset_self, ha]
    rfl
  · intro a ha
    show dget (dset (dset (a.signals.getD []) "summary" (.s (a.summary.getD "")))
      "sentiment" (.s (a.sentiment.getD "SENTIMENT_NEUTRAL"))) "sentiment" SVal.null =
      SVal.s "SENTIMENT_NEUTRAL"
    rw [dget_dset_self, ha]
    rfl
  · intro d
    induction d with
    | nil => intro k _; rfl
    | cons p rest ih =>
        intro k hk
        obtain ⟨a, b⟩ := p
        rw [dkeys_cons] at hk
        have ha : a ≠ k := fun h => hk (List.mem_cons.2 (Or.inl h.symm))
        have hrest : k ∉ dkeys rest := fun h => hk (List.mem_cons.2 (Or.inr h))
        show (if a = k then b else dget rest k (.b false)) = .b false
        rw [if_neg ha]
        exact ih k hrest

/-- Witness for the amended C9 at concrete inputs. -/
theorem signal_keys_spec_witness :
    ("too_short" ∈ extractor_reported_keys .exn ∨ "too_short" ∈ closed_signal_keys) ∧
    dget (analyze_with_llm (.parsed ⟨none, none, none, none, none⟩)).1 "summary" SVal.null =
      SVal.s "" ∧
    dget ([("a", SVal.b true)] : Dict) "hate_sexual_violent" (.b false) = .b false :=
  ⟨signal_keys_spec.1 .exn "r" "h" 1 "hi" "too_short" (by decide),
   signal_keys_spec.2.1 ⟨none, none, none, none, none⟩ rfl,
   signal_keys_spec.2.2.2 [("a", SVal.b true)] "hate_sexual_violent" (by decide)⟩

/-- Claim C10: both branches of analyze_review copy review_id, hotel_id,
rating, and review_text into the record unchanged. -/
theorem record_preserves_inputs (outcome : LLMResult) (rid hid : String) (rating : Int)
    (text : String) :
    (analyze_review outcome rid hid rating text).review_id = rid ∧
    (analyze_review outcome rid hid rating text).hotel_id = hid ∧
    (analyze_review outcome rid hid rating text).rating = rating ∧
    (analyze_review outcome rid hid rating text).review_text = text := by
  cases outcome <;> exact ⟨rfl, rfl, rfl, rfl⟩

end ReviewsPoc
